import Mathlib

/-!
Verification of the SMS-OTP Cloudflare worker (`sms-otp-worker/src/index.ts`)
against its natural-language specification.

The worker is shallowly embedded as pure Lean functions:

* JavaScript runtime values that this program manipulates are modelled by
  `JSValue`; Firestore wire wrappers by `FirestoreValue`; a Firestore document
  by `Doc`.
* Timestamps are modelled by the instant they denote (epoch milliseconds, an
  `Int`).  `Date.prototype.toISOString` and `new Date(isoString)` are mutually
  inverse on valid dates, so the ISO-8601 text on the wire is modelled by the
  instant itself.
* The decimal `toString` / `parseInt` pair of JavaScript is modelled
  concretely (`jsIntToString`, `parseIntJS`), since the codec genuinely
  round-trips integers through their string wire form.
* The HTTP handler `fetch` from `index.ts` is embedded as `workerFetch`; its
  outbound effects (Firestore PATCH calls and Twilio SMS calls) are returned
  as explicit lists.  Outbound PATCH and SMS calls are modelled as succeeding;
  their failure paths (which surface as the generic 500 response) are outside
  every claim.
-/

/-- JavaScript values this worker manipulates: the decoded image of a
Firestore document.  `nan` is the result of `parseInt` on a non-numeric wire
string (JavaScript `NaN`, which has type number). -/
inductive JSValue where
  | str (s : String)
  | num (n : Int)
  | nan
  | bool (b : Bool)
  | date (t : Int)
  | null
deriving DecidableEq

/-- Firestore wire value wrappers (`{ <typeTag>Value: <value> }`, one tag per
wrapper as in the REST wire format).  The payloads of `mapValue` and
`arrayValue` are omitted because the code never inspects them; `doubleValue`
carries its wire text. -/
inductive FirestoreValue where
  | stringValue (s : String)
  | integerValue (s : String)
  | booleanValue (b : Bool)
  | timestampValue (t : Int)
  | nullValue
  | doubleValue (s : String)
  | mapValue
  | arrayValue
deriving DecidableEq

/-- A Firestore document: `fields` is absent (`none`) or a finite list of
named wrapped values in insertion order. -/
structure Doc where
  fields : Option (List (String × FirestoreValue))
deriving DecidableEq

/-- Decoded JavaScript object, as an insertion-ordered association list. -/
abbrev Obj := List (String × JSValue)

/-- JavaScript object property write `o[k] = v`: replace the entry for `k` in
place, or append it. -/
def assocSet : List (String × α) → String → α → List (String × α)
  | [], k, v => [(k, v)]
  | (k₁, v₁) :: rest, k, v =>
    if k₁ = k then (k, v) :: rest else (k₁, v₁) :: assocSet rest k v

/-- JavaScript object property read `o[k]` (`none` models `undefined`). -/
def assocGet : List (String × α) → String → Option α
  | [], _ => none
  | (k₁, v₁) :: rest, k => if k₁ = k then some v₁ else assocGet rest k

/-- Firestore field deletion (used by masked patches whose body omits a masked
field). -/
def assocRemove (l : List (String × α)) (k : String) : List (String × α) :=
  l.filter (fun kv => !(kv.1 = k))

/-- Decimal digit character for `d < 10`. -/
def digitCh (d : Nat) : Char := Char.ofNat (48 + d)

/-- Structural worker for `natToChars`: the fuel always suffices when it
exceeds the number, so the fuel case never shapes the result. -/
def natToCharsAux : Nat → Nat → List Char
  | 0, _ => []
  | fuel + 1, n =>
    if n < 10 then [digitCh n]
    else natToCharsAux fuel (n / 10) ++ [digitCh (n % 10)]

/-- Big-endian decimal digit characters of a natural number, as produced by
JavaScript `Number.prototype.toString` on a non-negative integer. -/
def natToChars (n : Nat) : List Char := natToCharsAux (n + 1) n

/-- JavaScript `toString` of a non-negative integer. -/
def natToString (n : Nat) : String := ⟨natToChars n⟩

/-- JavaScript `Number.prototype.toString` on an integer value. -/
def jsIntToString (n : Int) : String :=
  if n < 0 then "-" ++ natToString (-n).toNat else natToString n.toNat

/-- Value of a big-endian list of decimal digit characters. -/
def digitsToNat (cs : List Char) : Nat :=
  cs.foldl (fun a c => 10 * a + (c.toNat - 48)) 0

/-- Leading decimal-digit run of a character list, as consumed by
JavaScript `parseInt`; `none` when no digit is consumed (`NaN`). -/
def parseDigits (cs : List Char) : Option Nat :=
  if (cs.takeWhile Char.isDigit).isEmpty then none
  else some (digitsToNat (cs.takeWhile Char.isDigit))

/-- Sign-and-digits part of `parseInt`, after whitespace skipping. -/
def parseIntChars (cs : List Char) : JSValue :=
  if cs.head? = some '-' then
    match parseDigits cs.tail with
    | some m => .num (-(m : Int))
    | none => .nan
  else if cs.head? = some '+' then
    match parseDigits cs.tail with
    | some m => .num (m : Int)
    | none => .nan
  else
    match parseDigits cs with
    | some m => .num (m : Int)
    | none => .nan

/-- JavaScript `parseInt` (radix unspecified) restricted to the inputs this
program produces: optional leading spaces, optional sign, leading decimal
digits, trailing characters ignored; no digits consumed gives `NaN`.  The
hexadecimal `0x` prefix detection of `parseInt` is not modelled — the wire
strings this worker reads back are decimal integer text it wrote itself. -/
def parseIntJS (s : String) : JSValue :=
  parseIntChars (s.data.dropWhile (fun c => c = ' '))

/-- One wrapper of `firestoreToObject` (index.ts lines 112–119): project the
single recognized tag to its native value; unrecognized tags decode to
nothing. -/
def decodeValue : FirestoreValue → Option JSValue
  | .stringValue s => some (.str s)
  | .integerValue s => some (parseIntJS s)
  | .booleanValue b => some (.bool b)
  | .timestampValue t => some (.date t)
  | .nullValue => some .null
  | .doubleValue _ => none
  | .mapValue => none
  | .arrayValue => none

/-- Loop body of `firestoreToObject`: assign the decoded value, or skip the
attribute when its wrapper carries no recognized tag. -/
def decodeStep (obj : Obj) (kv : String × FirestoreValue) : Obj :=
  match decodeValue kv.2 with
  | some jv => assocSet obj kv.1 jv
  | none => obj

/-- Field-set part of `firestoreToObject`. -/
def decodeFields (fs : List (String × FirestoreValue)) : Obj :=
  fs.foldl decodeStep []

/-- `firestoreToObject` (index.ts lines 109–121): a document without a field
set decodes to `null`. -/
def firestoreToObject (doc : Doc) : Option Obj :=
  match doc.fields with
  | none => none
  | some fs => some (decodeFields fs)

/-- One value of `objectToFirestore` (index.ts lines 127–131).  Total on
`JSValue`: unsupported native kinds (nested objects, arrays, undefined),
which the source silently omits, are outside the `JSValue` domain because
this worker never stores them.  JavaScript `NaN` has `typeof` number and
`toString` text NaN. -/
def encodeValue : JSValue → FirestoreValue
  | .str s => .stringValue s
  | .num n => .integerValue (jsIntToString n)
  | .nan => .integerValue ("NaN")
  | .bool b => .booleanValue b
  | .date t => .timestampValue t
  | .null => .nullValue

/-- Loop body of `objectToFirestore`. -/
def encodeStep (fs : List (String × FirestoreValue)) (kv : String × JSValue) :
    List (String × FirestoreValue) :=
  assocSet fs kv.1 (encodeValue kv.2)

/-- `objectToFirestore` (index.ts lines 124–134): always emits a field set
(possibly empty). -/
def objectToFirestore (obj : Obj) : Doc :=
  ⟨some (obj.foldl encodeStep [])⟩

/-- `generateOtp` (index.ts lines 137–139): `Math.random()` is modelled by a
rational `r` with `0 ≤ r < 1`; the arithmetic is exact in doubles over this
range, so rational arithmetic is faithful. -/
def generateOtp (r : ℚ) : String :=
  jsIntToString (Int.floor ((100000 : ℚ) + r * 900000))

/-- Truthiness of a JavaScript value as used in the worker's conditions;
`none` models `undefined`.  Objects (here `Date` values) are always truthy;
`NaN`, `0`, the empty string, `null`, `false` and `undefined` are falsy. -/
def truthy : Option JSValue → Bool
  | none => false
  | some (.str s) => !s.isEmpty
  | some (.num n) => !(n = 0)
  | some .nan => false
  | some (.bool b) => b
  | some (.date _) => true
  | some .null => false

/-- Truthiness of an optional request string (`!userId`, `!phone`, `!otp`):
absent or empty is falsy. -/
def strTruthy : Option String → Bool
  | none => false
  | some s => !s.isEmpty

/-- JavaScript strict equality `v === otp` between a looked-up property and a
candidate string: true exactly when the property holds that very string. -/
def strictEqStr : Option JSValue → String → Bool
  | some (.str s), t => s = t
  | _, _ => false

/-- JavaScript `ToNumber` on the values this record can store (`none` models
`NaN`).  The string branch is modelled for optionally signed decimal integer
text, the only numeric text this worker ever stores; it is unreachable for
records matching the spec's data model (`otpExpiresAt : timestamp|null`). -/
def toNumber : JSValue → Option Int
  | .num n => some n
  | .nan => none
  | .bool b => some (if b then 1 else 0)
  | .date t => some t
  | .null => some 0
  | .str s =>
    match parseIntJS (String.mk (s.data.takeWhile (fun c => !(c = ' ')))) with
    | .num n => some n
    | _ => none

/-- The comparison `userData.otpExpiresAt > new Date()`: both sides are
coerced to numbers (a `Date` to its epoch milliseconds); any `NaN` side makes
the comparison false, as does `undefined`. -/
def jsGtNow (v : Option JSValue) (nowMs : Int) : Bool :=
  match v with
  | none => false
  | some jv =>
    match toNumber jv with
    | some m => nowMs < m
    | none => false

/-- The verify guard of index.ts lines 256–260:
`userData.currentOtpCode === otp && userData.otpExpiresAt &&
userData.otpExpiresAt > new Date()`. -/
def otpChecksOut (userData : Obj) (otp : String) (nowMs : Int) : Bool :=
  strictEqStr (assocGet userData ("currentOtpCode")) otp
    && truthy (assocGet userData ("otpExpiresAt"))
    && jsGtNow (assocGet userData ("otpExpiresAt")) nowMs

/-- Inbound request body as destructured at index.ts line 181. -/
structure Req where
  userId : Option String
  phone : Option String
  otp : Option String
  action : Option String
deriving DecidableEq

/-- One Firestore PATCH call: document path, `updateMask.fieldPaths` entries
in URL order, and the JSON body. -/
structure PatchCall where
  path : String
  mask : List String
  body : Doc
deriving DecidableEq

/-- One Twilio SMS delivery (`dest` embeds the source's field named after the
recipient, which is a reserved word in Lean). -/
structure SmsCall where
  dest : String
  message : String
deriving DecidableEq

/-- The worker's possible responses, by the JSON bodies of index.ts. -/
inductive WorkerResult where
  | userIdRequired
  | userNotFound
  | notEligible
  | phoneRequired
  | otpSent
  | otpRequired
  | otpVerified
  | invalidOrExpired
  | badAction
  | internalError (details : String)
deriving DecidableEq

/-- Result of one handled request together with its outbound effects. -/
structure Outcome where
  result : WorkerResult
  patches : List PatchCall
  smss : List SmsCall
deriving DecidableEq

/-- Document path `/users/ userId` used for both GET and PATCH. -/
def usersPath (userId : String) : String := "/users/" ++ userId

/-- The update mask `?updateMask.fieldPaths=currentOtpCode&updateMask.fieldPaths=otpExpiresAt`
carried by both PATCH calls. -/
def otpMask : List String := [("currentOtpCode" : String), ("otpExpiresAt")]

/-- Modelled from the spec: the document store backend is an external
collaborator (spec section 6); a GET for an absent document answers non-2xx,
and such responses are surfaced by `firestoreRequest` (index.ts lines
100–103) as a thrown store error carrying the response body — the concrete
body text is irrelevant to every claim. -/
def storeNotFoundBody : String := "NOT_FOUND"

/-- The five-minute OTP expiry instant (index.ts line 219). -/
def otpExpiryMs (nowMs : Int) : Int := nowMs + 5 * 60 * 1000

/-- The SMS message template (index.ts line 233). -/
def otpMessage (otpCode : String) : String :=
  "Your verification code is: " ++ otpCode ++ ". It will expire in 5 minutes."

/-- The PATCH call issued on verify success (index.ts lines 262–270): clear
both OTP fields through the masked patch. -/
def clearOtpPatch (uid : String) : PatchCall :=
  ⟨usersPath uid, otpMask,
    objectToFirestore
      [(("currentOtpCode" : String), .null), (("otpExpiresAt" : String), .null)]⟩

/-- The `fetch` handler of index.ts lines 168–306, for a POST request, as a
function of the store contents (a map from document path to document; an
absent document makes the GET fail non-2xx, which the surrounding try/catch
turns into the generic 500 response), the current time in epoch milliseconds,
the `Math.random()` draw, and the parsed request body.  Outbound PATCH and
SMS calls are recorded in order and modelled as succeeding. -/
def workerFetch (store : String → Option Doc) (nowMs : Int) (rnd : ℚ)
    (req : Req) : Outcome :=
  if !(strTruthy req.userId) then ⟨.userIdRequired, [], []⟩
  else
    match store (usersPath (req.userId.getD (""))) with
    | none => ⟨.internalError ("Firestore error: " ++ storeNotFoundBody), [], []⟩
    | some userDoc =>
      match firestoreToObject userDoc with
      | none => ⟨.userNotFound, [], []⟩
      | some userData =>
        if req.action = some ("send") then
          if !(truthy (assocGet userData ("isPhoneVerified")))
              || !(truthy (assocGet userData ("is2FAEnabled"))) then
            ⟨.notEligible, [], []⟩
          else if !(strTruthy req.phone) then ⟨.phoneRequired, [], []⟩
          else
            ⟨.otpSent,
              [⟨usersPath (req.userId.getD ("")), otpMask,
                objectToFirestore
                  [(("currentOtpCode" : String), .str (generateOtp rnd)),
                   (("otpExpiresAt" : String), .date (otpExpiryMs nowMs))]⟩],
              [⟨req.phone.getD (""), otpMessage (generateOtp rnd)⟩]⟩
        else if req.action = some ("verify") then
          if !(strTruthy req.otp) then ⟨.otpRequired, [], []⟩
          else if otpChecksOut userData (req.otp.getD ("")) nowMs then
            ⟨.otpVerified, [clearOtpPatch (req.userId.getD (""))], []⟩
          else ⟨.invalidOrExpired, [], []⟩
        else ⟨.badAction, [], []⟩

/-- Modelled from the spec: the store's masked-update semantics (glossary
"Masked patch", spec section 4.3) — exactly the attributes named in the mask
are written from the body (a masked attribute absent from the body is
deleted); every other attribute is untouched. -/
def applyPatch (doc : Doc) (p : PatchCall) : Doc :=
  ⟨some (p.mask.foldl
    (fun fs f =>
      match assocGet (p.body.fields.getD []) f with
      | some v => assocSet fs f v
      | none => assocRemove fs f)
    (doc.fields.getD []))⟩

/-- The standard base64 alphabet used by `btoa`. -/
def b64Alphabet : List Char :=
  ("ABCDEFGHIJKLMNOPQRSTUVWXYZabcdefghijklmnopqrstuvwxyz0123456789+/").data

/-- URL-safe base64 alphabet: the image of the source's
`+` to `-` and `/` to `_` replacements. -/
def b64UrlAlphabet : List Char :=
  ("ABCDEFGHIJKLMNOPQRSTUVWXYZabcdefghijklmnopqrstuvwxyz0123456789-_").data

/-- Character for one 6-bit group. -/
def b64Ch (n : Nat) : Char := b64Alphabet.getD n ('A')

/-- Base64 encoding of a byte list with `=` padding, as produced by `btoa`
(3 bytes to 4 characters). -/
def btoaChunks : List Nat → List Char
  | [] => []
  | [a] => [b64Ch (a / 4), b64Ch (a % 4 * 16), '=', '=']
  | [a, b] => [b64Ch (a / 4), b64Ch (a % 4 * 16 + b / 16), b64Ch (b % 16 * 4), '=']
  | a :: b :: c :: rest =>
    b64Ch (a / 4) :: b64Ch (a % 4 * 16 + b / 16) :: b64Ch (b % 16 * 4 + c / 64)
      :: b64Ch (c % 64) :: btoaChunks rest

/-- The source's `.replace` of every `+` with `-`. -/
def replacePlus (cs : List Char) : List Char :=
  cs.map (fun c => if c = '+' then '-' else c)

/-- The source's `.replace` of every `/` with `_`. -/
def replaceSlash (cs : List Char) : List Char :=
  cs.map (fun c => if c = '/' then '_' else c)

/-- The source's `.replace` deleting every `=`. -/
def stripPad (cs : List Char) : List Char :=
  cs.filter (fun c => !(c = '='))

/-- The `btoa(...).replace(+).replace(/).replace(=)` pipeline applied to a
byte list (index.ts lines 29–36 and 60–63). -/
def jsBase64Url (bytes : List Nat) : String :=
  ⟨stripPad (replaceSlash (replacePlus (btoaChunks bytes)))⟩

/-- The latin-1 bytes `btoa` reads from a string; `btoa` throws on a code
point at or above 256 (`none`). -/
def latin1Bytes (s : String) : Option (List Nat) :=
  if s.data.all (fun c => c.toNat < 256) then some (s.data.map Char.toNat)
  else none

/-- URL-safe unpadded base64 of a string's latin-1 bytes, or `none` where
`btoa` would throw. -/
def jsB64UrlOfString (s : String) : Option String :=
  (latin1Bytes s).map jsBase64Url

/-- `btoa(String.fromCharCode(...bytes))` pipeline on raw signature bytes
(index.ts line 60); a value at or above 256 would make `btoa` throw. -/
def jsB64UrlOfBytes (bytes : List Nat) : Option String :=
  if bytes.all (fun b => b < 256) then some (jsBase64Url bytes) else none

/-- JSON escaping of one character inside a string literal (the two escapes
that can occur in a service-account principal; control-character escapes are
not modelled). -/
def jsonEscapeChar (c : Char) : List Char :=
  if c = '"' then ['\\', '"'] else if c = '\\' then ['\\', '\\'] else [c]

/-- JSON string literal for `s`. -/
def jsonStr (s : String) : String :=
  ⟨'"' :: ((s.data.map jsonEscapeChar).flatten ++ ['"'])⟩

/-- JWT claim set built at index.ts lines 20–26. -/
structure Claims where
  iss : String
  sub : String
  aud : String
  iat : Int
  exp : Int
deriving DecidableEq

/-- The claim set of the assertion: issuer and subject are the configured
service-account principal, audience is the fixed Firestore audience, expiry
is issued-at plus 3600 seconds. -/
def assertionClaims (clientEmail : String) (nowSec : Int) : Claims :=
  ⟨clientEmail, clientEmail, ("https://firestore.googleapis.com/"), nowSec,
    nowSec + 3600⟩

/-- `JSON.stringify` of the fixed `{alg: RS256, typ: JWT}` header, in
insertion order. -/
def headerJson : String := "\x7b\"alg\":\"RS256\",\"typ\":\"JWT\"\x7d"

/-- `JSON.stringify` of the claim set, in insertion order. -/
def claimsJson (c : Claims) : String :=
  "\x7b\"iss\":" ++ jsonStr c.iss ++ ",\"sub\":" ++ jsonStr c.sub
    ++ ",\"aud\":" ++ jsonStr c.aud ++ ",\"iat\":" ++ jsIntToString c.iat
    ++ ",\"exp\":" ++ jsIntToString c.exp ++ "\x7d"

/-- `getFirebaseToken` (index.ts lines 11–66): `nowSec` is the floored epoch
second, `sigBytes` the raw RSA signature bytes returned by
`crypto.subtle.sign` (the signing itself is an external Web Crypto call);
`none` models a thrown encoding error. -/
def getFirebaseToken (clientEmail : String) (nowSec : Int)
    (sigBytes : List Nat) : Option String :=
  match jsB64UrlOfString headerJson,
      jsB64UrlOfString (claimsJson (assertionClaims clientEmail nowSec)),
      jsB64UrlOfBytes sigBytes with
  | some h64, some p64, some s64 =>
    some (h64 ++ "." ++ p64 ++ "." ++ s64)
  | _, _, _ => none

/-- Validity of one token segment as the claims state it: every character is
in the URL-safe base64 alphabet, and none is a padding character. -/
def validB64UrlSeg (s : String) : Prop :=
  ∀ c ∈ s.data, c ∈ b64UrlAlphabet ∧ ¬(c = '=')

/-- Expiry field typed as the spec's data model states it:
`otpExpiresAt : timestamp|null`, possibly absent. -/
def wellTypedExpiry (v : Option JSValue) : Prop :=
  v = none ∨ v = some .null ∨ ∃ t : Int, v = some (.date t)

/-- A store in which one document path is overwritten (the resulting store
after the remote store applied a patched document at `path`). -/
def overrideStore (store : String → Option Doc) (path : String) (d : Doc) :
    String → Option Doc :=
  fun p => if p = path then some d else store p

/-- Concrete eligible identity record used to evaluate theorems. -/
def eligibleDoc : Doc :=
  ⟨some [(("isPhoneVerified" : String), .booleanValue true),
    (("is2FAEnabled" : String), .booleanValue true),
    (("phone" : String), .stringValue ("+1555")),
    (("currentOtpCode" : String), .stringValue ("123456")),
    (("otpExpiresAt" : String), .timestampValue 60000)]⟩

/-- Concrete record with phone verification off. -/
def ineligibleDoc : Doc :=
  ⟨some [(("isPhoneVerified" : String), .booleanValue false),
    (("is2FAEnabled" : String), .booleanValue true)]⟩

/-- Decoded form of `eligibleDoc`. -/
def eligibleObj : Obj :=
  [(("isPhoneVerified" : String), .bool true),
   (("is2FAEnabled" : String), .bool true),
   (("phone" : String), .str ("+1555")),
   (("currentOtpCode" : String), .str ("123456")),
   (("otpExpiresAt" : String), .date 60000)]

/-- Decoded form of `ineligibleDoc`. -/
def ineligibleObj : Obj :=
  [(("isPhoneVerified" : String), .bool false),
   (("is2FAEnabled" : String), .bool true)]

/-- Store holding `eligibleDoc` for user `u1` and nothing else. -/
def sampleStore : String → Option Doc :=
  fun p => if p = usersPath ("u1") then some eligibleDoc else none

/-- Store holding `ineligibleDoc` for user `u1` and nothing else. -/
def ineligibleStore : String → Option Doc :=
  fun p => if p = usersPath ("u1") then some ineligibleDoc else none

/-- Store with no documents at all. -/
def emptyStore : String → Option Doc := fun _ => none

/-- Concrete verify request for user `u1` with candidate code `123456`. -/
def verifyReq : Req := ⟨some ("u1"), none, some ("123456"), some ("verify")⟩

/-- Concrete send request for user `u1`. -/
def sendReq : Req := ⟨some ("u1"), some ("+1555"), none, some ("send")⟩

/-!  Lemmas about decimal digit strings. -/

theorem digitCh_isDigit (d : Nat) (h : d < 10) : (digitCh d).isDigit = true := by
  interval_cases d <;> decide

theorem digitCh_toNat (d : Nat) (h : d < 10) : (digitCh d).toNat = 48 + d := by
  interval_cases d <;> decide

theorem natToCharsAux_fuel_irrel (fuel₁ : Nat) :
    ∀ fuel₂ n : Nat, n < fuel₁ → n < fuel₂ →
      natToCharsAux fuel₁ n = natToCharsAux fuel₂ n := by
  induction fuel₁ with
  | zero => intro fuel₂ n h1 _; omega
  | succ f ih =>
    intro fuel₂ n h1 h2
    cases fuel₂ with
    | zero => omega
    | succ g =>
      rw [natToCharsAux, natToCharsAux]
      by_cases h : n < 10
      · rw [if_pos h, if_pos h]
      · rw [if_neg h, if_neg h, ih g (n / 10) (by omega) (by omega)]

theorem natToChars_unfold (n : Nat) :
    natToChars n
      = if n < 10 then [digitCh n]
        else natToChars (n / 10) ++ [digitCh (n % 10)] := by
  rw [natToChars, natToCharsAux]
  by_cases h : n < 10
  · rw [if_pos h, if_pos h]
  · rw [if_neg h, if_neg h, natToChars,
      natToCharsAux_fuel_irrel n (n / 10 + 1) (n / 10)
        (Nat.div_lt_self (by omega) (by omega)) (by omega)]

theorem natToChars_ne_nil (n : Nat) : natToChars n ≠ [] := by
  rw [natToChars_unfold]
  split <;> simp

theorem natToChars_all_digits (n : Nat) :
    ∀ c ∈ natToChars n, c.isDigit = true := by
  induction n using Nat.strong_induction_on with
  | _ n ih =>
    intro c hc
    rw [natToChars_unfold] at hc
    by_cases h : n < 10
    · rw [if_pos h] at hc
      simp at hc
      subst hc
      exact digitCh_isDigit n h
    · rw [if_neg h] at hc
      rcases List.mem_append.mp hc with h1 | h1
      · exact ih (n / 10) (Nat.div_lt_self (by omega) (by omega)) c h1
      · simp at h1
        subst h1
        exact digitCh_isDigit _ (Nat.mod_lt _ (by omega))

theorem digitsToNat_append_digit (cs : List Char) (c : Char) :
    digitsToNat (cs ++ [c]) = 10 * digitsToNat cs + (c.toNat - 48) := by
  simp [digitsToNat, List.foldl_append]

theorem digitsToNat_natToChars (n : Nat) : digitsToNat (natToChars n) = n := by
  induction n using Nat.strong_induction_on with
  | _ n ih =>
    rw [natToChars_unfold]
    by_cases h : n < 10
    · rw [if_pos h]
      simp [digitsToNat, digitCh_toNat n h]
    · rw [if_neg h, digitsToNat_append_digit,
        ih (n / 10) (Nat.div_lt_self (by omega) (by omega)),
        digitCh_toNat _ (Nat.mod_lt _ (by omega))]
      omega

theorem natToChars_length (k : Nat) :
    ∀ n : Nat, 10 ^ k ≤ n → n < 10 ^ (k + 1) → (natToChars n).length = k + 1 := by
  induction k with
  | zero =>
    intro n h1 h2
    rw [natToChars_unfold, if_pos (by simpa using h2)]
    rfl
  | succ k ih =>
    intro n h1 h2
    have h10 : ¬ n < 10 := by
      have : (10 : Nat) ^ 1 ≤ 10 ^ (k + 1) := Nat.pow_le_pow_right (by omega) (by omega)
      simp only [pow_one] at this
      omega
    rw [natToChars_unfold, if_neg h10, List.length_append]
    have hlo : 10 ^ k ≤ n / 10 := by
      rw [Nat.le_div_iff_mul_le (by omega)]
      calc 10 ^ k * 10 = 10 ^ (k + 1) := by ring
        _ ≤ n := h1
    have hhi : n / 10 < 10 ^ (k + 1) := by
      rw [Nat.div_lt_iff_lt_mul (by omega)]
      calc n < 10 ^ (k + 2) := h2
        _ = 10 ^ (k + 1) * 10 := by ring
    rw [ih (n / 10) hlo hhi]
    rfl

theorem takeWhile_eq_self_of_all (p : Char → Bool) :
    ∀ cs : List Char, (∀ c ∈ cs, p c = true) → cs.takeWhile p = cs := by
  intro cs
  induction cs with
  | nil => intro _; rfl
  | cons c rest ih =>
    intro h
    rw [List.takeWhile_cons, if_pos (h c (by simp)),
      ih (fun x hx => h x (by simp [hx]))]

theorem isDigit_ne_space (c : Char) (h : c.isDigit = true) : ¬ c = ' ' := by
  intro hc
  subst hc
  simp at h

theorem isDigit_ne_minus (c : Char) (h : c.isDigit = true) : ¬ c = '-' := by
  intro hc
  subst hc
  simp at h

theorem isDigit_ne_plus (c : Char) (h : c.isDigit = true) : ¬ c = '+' := by
  intro hc
  subst hc
  simp at h

theorem parseDigits_of_digits (cs : List Char) (hne : cs ≠ [])
    (hd : ∀ c ∈ cs, c.isDigit = true) :
    parseDigits cs = some (digitsToNat cs) := by
  rw [parseDigits]
  simp only [takeWhile_eq_self_of_all _ _ hd]
  rw [if_neg (by simpa using hne)]

theorem parseIntJS_of_digits (cs : List Char) (hne : cs ≠ [])
    (hd : ∀ c ∈ cs, c.isDigit = true) :
    parseIntJS ⟨cs⟩ = .num (digitsToNat cs) := by
  rcases cs with _ | ⟨c, rest⟩
  · exact absurd rfl hne
  have hc : c.isDigit = true := hd c (by simp)
  have hdw : (c :: rest).dropWhile (fun x => x = ' ') = c :: rest := by
    rw [List.dropWhile_cons, if_neg (by simpa using isDigit_ne_space c hc)]
  show parseIntChars ((c :: rest).dropWhile (fun x => x = ' ')) = _
  rw [hdw, parseIntChars,
    if_neg (by simpa using isDigit_ne_minus c hc),
    if_neg (by simpa using isDigit_ne_plus c hc),
    parseDigits_of_digits _ (by simp) hd]

theorem parseIntJS_natToString (n : Nat) :
    parseIntJS (natToString n) = .num (n : Int) := by
  rw [natToString, parseIntJS_of_digits _ (natToChars_ne_nil n)
    (natToChars_all_digits n), digitsToNat_natToChars]

theorem parseIntJS_jsIntToString (n : Int) :
    parseIntJS (jsIntToString n) = .num n := by
  by_cases h : n < 0
  · rw [jsIntToString, if_pos h]
    have hdata : (("-" : String) ++ natToString (-n).toNat).data
        = '-' :: natToChars (-n).toNat := by
      simp [natToString]
    rw [parseIntJS, hdata]
    have hdw : ('-' :: natToChars (-n).toNat).dropWhile (fun x => x = ' ')
        = '-' :: natToChars (-n).toNat := by
      rw [List.dropWhile_cons, if_neg (by simp)]
    rw [hdw, parseIntChars, if_pos (by simp)]
    simp only [List.tail_cons]
    rw [parseDigits_of_digits _ (natToChars_ne_nil _) (natToChars_all_digits _),
      digitsToNat_natToChars]
    have hn : (((-n).toNat : Int)) = -n := Int.toNat_of_nonneg (by omega)
    simp [hn]
  · rw [jsIntToString, if_neg h, parseIntJS_natToString]
    have hn : ((n.toNat : Int)) = n := Int.toNat_of_nonneg (by omega)
    rw [hn]

theorem decodeValue_encodeValue (v : JSValue) :
    decodeValue (encodeValue v) = some v := by
  cases v with
  | num n => simp [encodeValue, decodeValue, parseIntJS_jsIntToString]
  | nan => decide
  | _ => rfl

/-!  Lemmas about association-list operations. -/

theorem assocGet_assocSet_self (l : List (String × α)) (k : String) (v : α) :
    assocGet (assocSet l k v) k = some v := by
  induction l with
  | nil => simp [assocSet, assocGet]
  | cons p rest ih =>
    by_cases h : p.1 = k
    · simp [assocSet, h, assocGet]
    · simp [assocSet, h, assocGet, ih]

theorem assocGet_assocSet_ne (l : List (String × α)) (k₁ k₂ : String) (v : α)
    (h : ¬ k₁ = k₂) : assocGet (assocSet l k₁ v) k₂ = assocGet l k₂ := by
  induction l with
  | nil => simp [assocSet, assocGet, h]
  | cons p rest ih =>
    by_cases hp : p.1 = k₁
    · simp [assocSet, hp, assocGet, h]
    · simp [assocSet, hp, assocGet, ih]

theorem assocSet_of_not_mem (l : List (String × α)) (k : String) (v : α)
    (h : ∀ p ∈ l, ¬ p.1 = k) : assocSet l k v = l ++ [(k, v)] := by
  induction l with
  | nil => rfl
  | cons p rest ih =>
    rw [assocSet.eq_def]
    simp only []
    rw [if_neg (h p (by simp))]
    rw [ih (fun q hq => h q (by simp [hq]))]
    rfl

theorem assocSet_map_fst_of_mem (l : List (String × α)) (k : String) (v : α)
    (h : k ∈ l.map Prod.fst) : (assocSet l k v).map Prod.fst = l.map Prod.fst := by
  induction l with
  | nil => simp at h
  | cons p rest ih =>
    by_cases hp : p.1 = k
    · simp [assocSet, hp]
    · have : k ∈ rest.map Prod.fst := by
        rcases List.mem_map.mp h with ⟨q, hq, hq2⟩
        rcases List.mem_cons.mp hq with h1 | h1
        · exact absurd (h1 ▸ hq2) hp
        · exact List.mem_map.mpr ⟨q, h1, hq2⟩
      simp [assocSet, hp, ih this]

theorem assocSet_map_fst_of_not_mem (l : List (String × α)) (k : String) (v : α)
    (h : ¬ k ∈ l.map Prod.fst) :
    (assocSet l k v).map Prod.fst = l.map Prod.fst ++ [k] := by
  rw [assocSet_of_not_mem]
  · simp
  · intro p hp hk
    exact h (List.mem_map.mpr ⟨p, hp, hk⟩)

theorem assocSet_map_fst_nodup (l : List (String × α)) (k : String) (v : α)
    (h : (l.map Prod.fst).Nodup) : ((assocSet l k v).map Prod.fst).Nodup := by
  by_cases hm : k ∈ l.map Prod.fst
  · rw [assocSet_map_fst_of_mem l k v hm]
    exact h
  · rw [assocSet_map_fst_of_not_mem l k v hm]
    simp [List.nodup_append, h, hm]

/-!  The encode fold over a duplicate-free mapping appends in order. -/

theorem foldl_encodeStep_eq (obj : Obj) :
    ∀ acc : List (String × FirestoreValue), (obj.map Prod.fst).Nodup →
      (∀ kv ∈ obj, ∀ p ∈ acc, ¬ p.1 = kv.1) →
      obj.foldl encodeStep acc
        = acc ++ obj.map (fun kv => (kv.1, encodeValue kv.2)) := by
  induction obj with
  | nil => intro acc _ _; simp
  | cons kv rest ih =>
    intro acc hnd hdisj
    rw [List.foldl_cons]
    have hstep : encodeStep acc kv = acc ++ [(kv.1, encodeValue kv.2)] := by
      rw [encodeStep, assocSet_of_not_mem _ _ _ (hdisj kv (by simp))]
    rw [hstep, ih (acc ++ [(kv.1, encodeValue kv.2)]) (by simpa using hnd.of_cons)]
    · simp
    · intro kw hkw p hp
      rcases List.mem_append.mp hp with h1 | h1
      · exact hdisj kw (by simp [hkw]) p h1
      · simp at h1
        rw [h1]
        simp only []
        intro hkk
        have : kv.1 ∈ rest.map Prod.fst :=
          List.mem_map.mpr ⟨kw, hkw, hkk.symm⟩
        rw [List.map_cons, List.nodup_cons] at hnd
        exact hnd.1 this

theorem objectToFirestore_eq_map (obj : Obj) (h : (obj.map Prod.fst).Nodup) :
    objectToFirestore obj
      = ⟨some (obj.map (fun kv => (kv.1, encodeValue kv.2)))⟩ := by
  rw [objectToFirestore, foldl_encodeStep_eq obj [] h (by simp)]
  rfl

/-!  The decode fold over an encoded duplicate-free mapping restores it. -/

theorem foldl_decodeStep_encoded (obj : Obj) :
    ∀ acc : Obj, (obj.map Prod.fst).Nodup →
      (∀ kv ∈ obj, ∀ p ∈ acc, ¬ p.1 = kv.1) →
      (obj.map (fun kv => (kv.1, encodeValue kv.2))).foldl decodeStep acc
        = acc ++ obj := by
  induction obj with
  | nil => intro acc _ _; simp
  | cons kv rest ih =>
    intro acc hnd hdisj
    rw [List.map_cons, List.foldl_cons]
    have hstep : decodeStep acc (kv.1, encodeValue kv.2) = acc ++ [kv] := by
      rw [decodeStep]
      simp only [decodeValue_encodeValue]
      rw [assocSet_of_not_mem _ _ _ (hdisj kv (by simp))]
    rw [hstep, ih (acc ++ [kv]) (by simpa using hnd.of_cons)]
    · simp
    · intro kw hkw p hp
      rcases List.mem_append.mp hp with h1 | h1
      · exact hdisj kw (by simp [hkw]) p h1
      · simp at h1
        rw [h1]
        intro hkk
        have : kv.1 ∈ rest.map Prod.fst :=
          List.mem_map.mpr ⟨kw, hkw, hkk.symm⟩
        rw [List.map_cons, List.nodup_cons] at hnd
        exact hnd.1 this

theorem assocGet_eq_none_of_not_mem (l : List (String × α)) (k : String)
    (h : ¬ k ∈ l.map Prod.fst) : assocGet l k = none := by
  induction l with
  | nil => rfl
  | cons p rest ih =>
    rw [assocGet.eq_def]
    simp only []
    rw [if_neg]
    · exact ih (fun hm => h (by simp [hm]))
    · intro hp
      exact h (by simp [hp])

theorem assocGet_foldl_decodeStep (fs : List (String × FirestoreValue)) :
    ∀ (acc : Obj) (k : String), (fs.map Prod.fst).Nodup →
      assocGet (fs.foldl decodeStep acc) k
        = Option.or ((assocGet fs k).bind decodeValue) (assocGet acc k) := by
  induction fs with
  | nil => intro acc k _; simp [assocGet]
  | cons kv rest ih =>
    obtain ⟨k₁, v₁⟩ := kv
    intro acc k hnd
    rw [List.foldl_cons, ih (decodeStep acc (k₁, v₁)) k (by simpa using hnd.of_cons)]
    by_cases hk : k₁ = k
    · have hnm : ¬ k ∈ rest.map Prod.fst := by
        rw [List.map_cons, List.nodup_cons] at hnd
        simpa [← hk] using hnd.1
      rw [assocGet_eq_none_of_not_mem rest k hnm]
      have hget : assocGet ((k₁, v₁) :: rest) k = some v₁ := by
        simp [assocGet, hk]
      rw [hget]
      cases hdv : decodeValue v₁ with
      | some jv =>
        have hstep : decodeStep acc (k₁, v₁) = assocSet acc k₁ jv := by
          simp [decodeStep, hdv]
        rw [hstep, hk, assocGet_assocSet_self]
        simp [Option.or, Option.bind, hdv]
      | none =>
        have hstep : decodeStep acc (k₁, v₁) = acc := by
          simp [decodeStep, hdv]
        rw [hstep]
        simp [Option.or, Option.bind, hdv]
    · have hget : assocGet ((k₁, v₁) :: rest) k = assocGet rest k := by
        simp [assocGet, hk]
      rw [hget]
      have hacc : assocGet (decodeStep acc (k₁, v₁)) k = assocGet acc k := by
        cases hdv : decodeValue v₁ with
        | some jv =>
          have hstep : decodeStep acc (k₁, v₁) = assocSet acc k₁ jv := by
            simp [decodeStep, hdv]
          rw [hstep]
          exact assocGet_assocSet_ne acc k₁ k jv hk
        | none => simp [decodeStep, hdv]
      rw [hacc]

theorem assocGet_decodeFields (fs : List (String × FirestoreValue))
    (k : String) (hnd : (fs.map Prod.fst).Nodup) :
    assocGet (decodeFields fs) k = (assocGet fs k).bind decodeValue := by
  rw [decodeFields, assocGet_foldl_decodeStep fs [] k hnd]
  cases (assocGet fs k).bind decodeValue <;> rfl

/-!  Lemmas about the base64 pipeline. -/

theorem b64Ch_mem (n : Nat) : b64Ch n ∈ b64Alphabet := by
  rw [b64Ch, List.getD]
  cases h : b64Alphabet.get? n with
  | some c =>
    simp only [Option.getD_some]
    exact List.get?_mem h
  | none => decide

theorem btoaChunks_mem (bs : List Nat) :
    ∀ c ∈ btoaChunks bs, c ∈ b64Alphabet ∨ c = '=' := by
  induction bs using btoaChunks.induct with
  | case1 => intro c hc; simp [btoaChunks] at hc
  | case2 a =>
    intro c hc
    simp only [btoaChunks, List.mem_cons, List.not_mem_nil, or_false] at hc
    rcases hc with h | h | h | h
    all_goals first
      | (left; rw [h]; exact b64Ch_mem _)
      | (right; rw [h])
  | case3 a b =>
    intro c hc
    simp only [btoaChunks, List.mem_cons, List.not_mem_nil, or_false] at hc
    rcases hc with h | h | h | h
    all_goals first
      | (left; rw [h]; exact b64Ch_mem _)
      | (right; rw [h])
  | case4 a b cc rest ih =>
    intro c hc
    simp only [btoaChunks, List.mem_cons] at hc
    rcases hc with h | h | h | h | h
    · left; rw [h]; exact b64Ch_mem _
    · left; rw [h]; exact b64Ch_mem _
    · left; rw [h]; exact b64Ch_mem _
    · left; rw [h]; exact b64Ch_mem _
    · exact ih c h

theorem urlsub_mem :
    ∀ c ∈ b64Alphabet,
      (if (if c = '+' then '-' else c) = '/' then '_'
        else (if c = '+' then '-' else c)) ∈ b64UrlAlphabet := by
  decide

theorem jsBase64Url_valid (bs : List Nat) : validB64UrlSeg (jsBase64Url bs) := by
  intro c hc
  have hc2 : c ∈ stripPad (replaceSlash (replacePlus (btoaChunks bs))) := hc
  rw [stripPad] at hc2
  have hmem := List.mem_filter.mp hc2
  have hne : ¬ c = '=' := by simpa using hmem.2
  refine ⟨?_, hne⟩
  have hc3 := hmem.1
  rw [replaceSlash] at hc3
  rcases List.mem_map.mp hc3 with ⟨c1, hc1, hc1e⟩
  rw [replacePlus] at hc1
  rcases List.mem_map.mp hc1 with ⟨c0, hc0, hc0e⟩
  rcases btoaChunks_mem bs c0 hc0 with h0 | h0
  · rw [← hc1e, ← hc0e]
    exact urlsub_mem c0 h0
  · exfalso
    apply hne
    rw [← hc1e, ← hc0e, h0]
    rfl

/-!  Lemmas about the OTP generator. -/

theorem generateOtp_floor_bounds (r : ℚ) (h0 : 0 ≤ r) (h1 : r < 1) :
    100000 ≤ Int.floor ((100000 : ℚ) + r * 900000)
      ∧ Int.floor ((100000 : ℚ) + r * 900000) ≤ 999999 := by
  constructor
  · apply Int.le_floor.mpr
    push_cast
    nlinarith
  · have : Int.floor ((100000 : ℚ) + r * 900000) < 1000000 := by
      apply Int.floor_lt.mpr
      push_cast
      nlinarith
    omega

theorem generateOtp_eq (r : ℚ) (h0 : 0 ≤ r) (h1 : r < 1) :
    generateOtp r
      = natToString (Int.floor ((100000 : ℚ) + r * 900000)).toNat := by
  have hb := generateOtp_floor_bounds r h0 h1
  rw [generateOtp, jsIntToString, if_neg (by omega)]

theorem natToString_length_six (n : Nat) (hlo : 100000 ≤ n) (hhi : n ≤ 999999) :
    (natToString n).length = 6 := by
  have : (natToChars n).length = 5 + 1 := by
    apply natToChars_length 5 n
    · simpa using hlo
    · show n < 10 ^ 6
      have h6 : (10 : Nat) ^ 6 = 1000000 := by norm_num
      omega
  simpa [natToString, String.length] using this

/-- C4: for every mapping whose values are built only from the five supported
kinds, decoding the document produced by encoding it restores the mapping.
The mapping's keys are pairwise distinct, as they are for every JavaScript
object; the theorem in fact holds for every `JSValue`, which strictly
contains the five kinds string, integer, boolean, timestamp, null. -/
theorem codec_roundtrip (m : Obj) (h : (m.map Prod.fst).Nodup) :
    firestoreToObject (objectToFirestore m) = some m := by
  rw [objectToFirestore_eq_map m h]
  show some (decodeFields (m.map fun kv => (kv.1, encodeValue kv.2))) = some m
  rw [decodeFields, foldl_decodeStep_encoded m [] h (by simp)]
  rfl

/-- C4 witness: the round-trip evaluated on a concrete mapping holding one
value of each of the five supported kinds. -/
theorem codec_roundtrip_witness :
    firestoreToObject (objectToFirestore
      [(("a" : String), .str ("x")), (("b" : String), .num (-5)),
       (("c" : String), .bool true), (("d" : String), .date 99),
       (("e" : String), .null)])
      = some [(("a" : String), .str ("x")), (("b" : String), .num (-5)),
       (("c" : String), .bool true), (("d" : String), .date 99),
       (("e" : String), .null)] :=
  codec_roundtrip
    [(("a" : String), .str ("x")), (("b" : String), .num (-5)),
     (("c" : String), .bool true), (("d" : String), .date 99),
     (("e" : String), .null)] (by decide)

/-- C10: an attribute whose wrapper carries none of the five recognized tags
(for example a double, map, or array wrapper) is silently omitted by
decoding — the document decodes exactly as if the attribute were not there —
and decoding never fails; every decoded value is a `JSValue`, hence of the
supported kinds. -/
theorem decode_omits_unrecognized (pre post : List (String × FirestoreValue))
    (k : String) (v : FirestoreValue) (s : String) (h : decodeValue v = none) :
    firestoreToObject ⟨some (pre ++ (k, v) :: post)⟩
        = firestoreToObject ⟨some (pre ++ post)⟩
      ∧ decodeValue (.doubleValue s) = none
      ∧ decodeValue .mapValue = none ∧ decodeValue .arrayValue = none := by
  refine ⟨?_, rfl, rfl, rfl⟩
  show some (decodeFields (pre ++ (k, v) :: post))
    = some (decodeFields (pre ++ post))
  rw [decodeFields, decodeFields, List.foldl_append, List.foldl_append,
    List.foldl_cons]
  have hstep : decodeStep (pre.foldl decodeStep []) (k, v)
      = pre.foldl decodeStep [] := by
    simp [decodeStep, h]
  rw [hstep]

/-- C10 witness: a document holding a map-tagged attribute decodes exactly
like the document without it. -/
theorem decode_omits_unrecognized_witness :
    firestoreToObject ⟨some ([] ++ (("a" : String), .mapValue)
        :: [(("b" : String), .stringValue ("y"))])⟩
        = firestoreToObject ⟨some ([] ++ [(("b" : String), .stringValue ("y"))])⟩
      ∧ decodeValue (.doubleValue ("1.5")) = none
      ∧ decodeValue .mapValue = none ∧ decodeValue .arrayValue = none :=
  decode_omits_unrecognized [] [(("b" : String), .stringValue ("y"))] ("a")
    .mapValue ("1.5") rfl

/-- C7: the OTP generator always yields the decimal string of an integer in
the range 100000–999999, six characters long and all decimal digits. -/
theorem generateOtp_spec (r : ℚ) (h0 : 0 ≤ r) (h1 : r < 1) :
    ∃ n : Int, generateOtp r = jsIntToString n ∧ 100000 ≤ n ∧ n ≤ 999999
      ∧ (generateOtp r).length = 6
      ∧ ∀ c ∈ (generateOtp r).data, c.isDigit = true := by
  have hb := generateOtp_floor_bounds r h0 h1
  refine ⟨Int.floor ((100000 : ℚ) + r * 900000), rfl, hb.1, hb.2, ?_, ?_⟩
  · rw [generateOtp_eq r h0 h1]
    apply natToString_length_six <;> omega
  · rw [generateOtp_eq r h0 h1]
    intro c hc
    exact natToChars_all_digits _ c hc

/-- C7 witness: the generator evaluated at draw 0. -/
theorem generateOtp_spec_witness :
    ∃ n : Int, generateOtp 0 = jsIntToString n ∧ 100000 ≤ n ∧ n ≤ 999999
      ∧ (generateOtp 0).length = 6
      ∧ ∀ c ∈ (generateOtp 0).data, c.isDigit = true :=
  generateOtp_spec 0 (by norm_num) (by norm_num)

theorem jsB64UrlOfString_inv (s t : String) (h : jsB64UrlOfString s = some t) :
    ∃ bs, t = jsBase64Url bs := by
  rw [jsB64UrlOfString] at h
  cases hlb : latin1Bytes s with
  | none => rw [hlb] at h; simp at h
  | some bs =>
    rw [hlb] at h
    simp only [Option.map_some'] at h
    exact ⟨bs, (Option.some.injEq _ _ ▸ h).symm⟩

theorem jsB64UrlOfBytes_inv (bs : List Nat) (t : String)
    (h : jsB64UrlOfBytes bs = some t) : t = jsBase64Url bs := by
  rw [jsB64UrlOfBytes] at h
  split at h
  · exact ((Option.some.injEq _ _).mp h).symm
  · exact absurd h (by simp)

/-- C8: every issued assertion has a claim set with expiry exactly 3600
seconds after issue, issuer and subject equal to the configured principal,
the fixed Firestore audience, and its three dot-separated segments are
URL-safe base64 with no padding characters. -/
theorem assertion_spec (e : String) (n : Int) (sig : List Nat) (tok : String)
    (h : getFirebaseToken e n sig = some tok) :
    (assertionClaims e n).exp - (assertionClaims e n).iat = 3600
      ∧ (assertionClaims e n).iss = e
      ∧ (assertionClaims e n).sub = e
      ∧ (assertionClaims e n).aud = ("https://firestore.googleapis.com/")
      ∧ ∃ h64 p64 s64, tok = h64 ++ "." ++ p64 ++ "." ++ s64
          ∧ validB64UrlSeg h64 ∧ validB64UrlSeg p64 ∧ validB64UrlSeg s64 := by
  refine ⟨by show n + 3600 - n = 3600; omega, rfl, rfl, rfl, ?_⟩
  rw [getFirebaseToken] at h
  cases hhd : jsB64UrlOfString headerJson with
  | none => rw [hhd] at h; simp at h
  | some h64 =>
    cases hpl : jsB64UrlOfString (claimsJson (assertionClaims e n)) with
    | none => rw [hhd, hpl] at h; simp at h
    | some p64 =>
      cases hsg : jsB64UrlOfBytes sig with
      | none => rw [hhd, hpl, hsg] at h; simp at h
      | some s64 =>
        rw [hhd, hpl, hsg] at h
        simp only [Option.some.injEq] at h
        refine ⟨h64, p64, s64, h.symm, ?_, ?_, ?_⟩
        · rcases jsB64UrlOfString_inv _ _ hhd with ⟨bs, rfl⟩
          exact jsBase64Url_valid bs
        · rcases jsB64UrlOfString_inv _ _ hpl with ⟨bs, rfl⟩
          exact jsBase64Url_valid bs
        · rw [jsB64UrlOfBytes_inv sig s64 hsg]
          exact jsBase64Url_valid sig

/-- C8 witness: a concrete issued token, evaluated from a concrete principal,
issue instant, and signature byte list. -/
theorem assertion_spec_witness :
    (assertionClaims ("sa@example.com") 0).exp
        - (assertionClaims ("sa@example.com") 0).iat = 3600
      ∧ (assertionClaims ("sa@example.com") 0).iss = ("sa@example.com")
      ∧ (assertionClaims ("sa@example.com") 0).sub = ("sa@example.com")
      ∧ (assertionClaims ("sa@example.com") 0).aud
          = ("https://firestore.googleapis.com/")
      ∧ ∃ h64 p64 s64,
          ("eyJhbGciOiJSUzI1NiIsInR5cCI6IkpXVCJ9.eyJpc3MiOiJzYUBleGFtcGxlLmNvbSIsInN1YiI6InNhQGV4YW1wbGUuY29tIiwiYXVkIjoiaHR0cHM6Ly9maXJlc3RvcmUuZ29vZ2xlYXBpcy5jb20vIiwiaWF0IjowLCJleHAiOjM2MDB9.AAH6")
            = h64 ++ "." ++ p64 ++ "." ++ s64
          ∧ validB64UrlSeg h64 ∧ validB64UrlSeg p64 ∧ validB64UrlSeg s64 :=
  assertion_spec ("sa@example.com") 0 [0, 1, 250]
    ("eyJhbGciOiJSUzI1NiIsInR5cCI6IkpXVCJ9.eyJpc3MiOiJzYUBleGFtcGxlLmNvbSIsInN1YiI6InNhQGV4YW1wbGUuY29tIiwiYXVkIjoiaHR0cHM6Ly9maXJlc3RvcmUuZ29vZ2xlYXBpcy5jb20vIiwiaWF0IjowLCJleHAiOjM2MDB9.AAH6")
    (by rfl)

/-!  Lemmas about the verify guard and the handler. -/

theorem strictEqStr_iff (v : Option JSValue) (t : String) :
    strictEqStr v t = true ↔ v = some (.str t) := by
  cases v with
  | none => simp [strictEqStr]
  | some jv => cases jv <;> simp [strictEqStr]

theorem otpChecksOut_iff (userData : Obj) (otp : String) (nowMs : Int)
    (hty : wellTypedExpiry (assocGet userData ("otpExpiresAt"))) :
    otpChecksOut userData otp nowMs = true ↔
      (assocGet userData ("currentOtpCode") = some (.str otp)
        ∧ ∃ t : Int, assocGet userData ("otpExpiresAt") = some (.date t)
            ∧ nowMs < t) := by
  rw [otpChecksOut]
  simp only [Bool.and_eq_true, strictEqStr_iff]
  rcases hty with h | h | ⟨t, h⟩
  · rw [h]
    simp [truthy]
  · rw [h]
    simp [truthy]
  · rw [h]
    simp [truthy, jsGtNow, toNumber]

theorem workerFetch_verify_reduce
    (store : String → Option Doc) (nowMs : Int) (rnd : ℚ) (req : Req)
    (uid : String) (doc : Doc) (userData : Obj)
    (hu : req.userId = some uid)
    (hut : strTruthy req.userId = true)
    (hdoc : store (usersPath uid) = some doc)
    (hdec : firestoreToObject doc = some userData)
    (hact : req.action = some ("verify"))
    (hot : strTruthy req.otp = true) :
    workerFetch store nowMs rnd req
      = if otpChecksOut userData (req.otp.getD ("")) nowMs
        then ⟨.otpVerified, [clearOtpPatch uid], []⟩
        else ⟨.invalidOrExpired, [], []⟩ := by
  rw [workerFetch, hut]
  simp only [Bool.not_true, Bool.false_eq_true, if_false, hu, Option.getD_some]
  rw [hdoc]
  simp only []
  rw [hdec]
  simp only [hact, hot, Bool.not_true, Bool.false_eq_true, if_false, if_true,
    Option.some.injEq, String.reduceEq, reduceIte]

/-- C1: a verify request against a record whose expiry field is typed as the
data model states (timestamp or null, possibly absent) succeeds exactly when
the stored code is the candidate string and the stored expiry is a timestamp
strictly after the current time; otherwise the result is the
invalid-or-expired report. -/
theorem verify_iff
    (store : String → Option Doc) (nowMs : Int) (rnd : ℚ) (req : Req)
    (uid : String) (doc : Doc) (userData : Obj)
    (hu : req.userId = some uid)
    (hut : strTruthy req.userId = true)
    (hdoc : store (usersPath uid) = some doc)
    (hdec : firestoreToObject doc = some userData)
    (hact : req.action = some ("verify"))
    (hot : strTruthy req.otp = true)
    (hty : wellTypedExpiry (assocGet userData ("otpExpiresAt"))) :
    ((workerFetch store nowMs rnd req).result = .otpVerified ↔
      (assocGet userData ("currentOtpCode") = some (.str (req.otp.getD ("")))
        ∧ ∃ t : Int, assocGet userData ("otpExpiresAt") = some (.date t)
            ∧ nowMs < t))
    ∧ ((workerFetch store nowMs rnd req).result = .otpVerified
        ∨ (workerFetch store nowMs rnd req).result = .invalidOrExpired) := by
  rw [workerFetch_verify_reduce store nowMs rnd req uid doc userData
    hu hut hdoc hdec hact hot]
  by_cases hg : otpChecksOut userData (req.otp.getD ("")) nowMs = true
  · rw [if_pos hg]
    exact ⟨⟨fun _ => (otpChecksOut_iff userData (req.otp.getD ("")) nowMs hty).mp hg,
      fun _ => rfl⟩, Or.inl rfl⟩
  · rw [if_neg hg]
    exact ⟨⟨fun habs => absurd habs (by decide), fun hrhs => absurd
      ((otpChecksOut_iff userData (req.otp.getD ("")) nowMs hty).mpr hrhs) hg⟩,
      Or.inr rfl⟩

/-- C1 witness: a fresh matching code verifies at time 0 against an expiry at
60000 milliseconds. -/
theorem verify_iff_witness :
    ((workerFetch sampleStore 0 0 verifyReq).result = .otpVerified ↔
      (assocGet eligibleObj ("currentOtpCode")
          = some (.str (verifyReq.otp.getD ("")))
        ∧ ∃ t : Int, assocGet eligibleObj ("otpExpiresAt") = some (.date t)
            ∧ 0 < t))
    ∧ ((workerFetch sampleStore 0 0 verifyReq).result = .otpVerified
        ∨ (workerFetch sampleStore 0 0 verifyReq).result = .invalidOrExpired) :=
  verify_iff sampleStore 0 0 verifyReq ("u1") eligibleDoc eligibleObj
    rfl rfl rfl rfl rfl rfl (Or.inr (Or.inr ⟨60000, rfl⟩))

/-- C3: a verify request whose success condition fails — code mismatch,
expiry elapsed, or code or expiry absent — reports invalid-or-expired and
issues no patch and no SMS: the identity record is left unchanged. -/
theorem verify_failure_no_mutation
    (store : String → Option Doc) (nowMs : Int) (rnd : ℚ) (req : Req)
    (uid : String) (doc : Doc) (userData : Obj)
    (hu : req.userId = some uid)
    (hut : strTruthy req.userId = true)
    (hdoc : store (usersPath uid) = some doc)
    (hdec : firestoreToObject doc = some userData)
    (hact : req.action = some ("verify"))
    (hot : strTruthy req.otp = true)
    (hty : wellTypedExpiry (assocGet userData ("otpExpiresAt")))
    (hfail : ¬(assocGet userData ("currentOtpCode")
          = some (.str (req.otp.getD ("")))
        ∧ ∃ t : Int, assocGet userData ("otpExpiresAt") = some (.date t)
            ∧ nowMs < t)) :
    workerFetch store nowMs rnd req = ⟨.invalidOrExpired, [], []⟩ := by
  rw [workerFetch_verify_reduce store nowMs rnd req uid doc userData
    hu hut hdoc hdec hact hot]
  rw [if_neg (fun hg => hfail
    ((otpChecksOut_iff userData (req.otp.getD ("")) nowMs hty).mp hg))]

/-- C3 witness: the matching code is rejected without mutation once the
expiry instant has passed. -/
theorem verify_failure_no_mutation_witness :
    workerFetch sampleStore 70000 0 verifyReq
      = ⟨.invalidOrExpired, [], []⟩ :=
  verify_failure_no_mutation sampleStore 70000 0 verifyReq ("u1")
    eligibleDoc eligibleObj rfl rfl rfl rfl rfl rfl
    (Or.inr (Or.inr ⟨60000, rfl⟩))
    (by
      rintro ⟨-, t, ht, hlt⟩
      have : t = 60000 := by
        have := (Option.some.injEq _ _).mp ht
        cases this
        rfl
      omega)

/-- C6: a send request against a record whose `isPhoneVerified` or
`is2FAEnabled` flag is false reports not-eligible and performs no patch and
no SMS delivery. -/
theorem send_not_eligible
    (store : String → Option Doc) (nowMs : Int) (rnd : ℚ) (req : Req)
    (uid : String) (doc : Doc) (userData : Obj)
    (hu : req.userId = some uid)
    (hut : strTruthy req.userId = true)
    (hdoc : store (usersPath uid) = some doc)
    (hdec : firestoreToObject doc = some userData)
    (hact : req.action = some ("send"))
    (hflag : assocGet userData ("isPhoneVerified") = some (.bool false)
      ∨ assocGet userData ("is2FAEnabled") = some (.bool false)) :
    workerFetch store nowMs rnd req = ⟨.notEligible, [], []⟩ := by
  rw [workerFetch]
  rw [hut]
  simp only [Bool.not_true, Bool.false_eq_true, if_false, hu, Option.getD_some]
  rw [hdoc]
  simp only []
  rw [hdec]
  simp only [hact, if_pos rfl]
  rcases hflag with h | h <;> rw [h] <;> simp [truthy]

/-- C6 witness: sending against a record with phone verification off. -/
theorem send_not_eligible_witness :
    workerFetch ineligibleStore 0 0 sendReq = ⟨.notEligible, [], []⟩ :=
  send_not_eligible ineligibleStore 0 0 sendReq ("u1") ineligibleDoc
    ineligibleObj rfl rfl rfl rfl rfl (Or.inl rfl)

/-- C9: evaluating the handler on a store holding no document at all for the
requested identity.  The store's GET answers non-2xx for an absent document,
`firestoreRequest` throws, and the surrounding try/catch returns the generic
internal 500 — not the user-facing not-found report, which is reachable only
for a present document carrying no field set. -/
theorem absent_record_internal_error :
    (workerFetch emptyStore 0 0 verifyReq).result
        = .internalError ("Firestore error: " ++ storeNotFoundBody)
      ∧ ¬ (workerFetch emptyStore 0 0 verifyReq).result = .userNotFound
      ∧ (workerFetch emptyStore 0 0 verifyReq).patches = []
      ∧ (workerFetch emptyStore 0 0 verifyReq).smss = []
      ∧ (workerFetch (fun _ => some ⟨none⟩) 0 0 verifyReq).result
          = .userNotFound := by
  exact ⟨rfl, by decide, rfl, rfl, rfl⟩

theorem applyPatch_two (doc : Doc) (p : PatchCall) (v₁ v₂ : FirestoreValue)
    (hm : p.mask = otpMask)
    (hb1 : assocGet (p.body.fields.getD []) ("currentOtpCode") = some v₁)
    (hb2 : assocGet (p.body.fields.getD []) ("otpExpiresAt") = some v₂) :
    applyPatch doc p
      = ⟨some (assocSet (assocSet (doc.fields.getD []) ("currentOtpCode") v₁)
          ("otpExpiresAt") v₂)⟩ := by
  rw [applyPatch, hm]
  simp only [otpMask, List.foldl_cons, List.foldl_nil, hb1, hb2]

theorem workerFetch_patches_shape
    (store : String → Option Doc) (nowMs : Int) (rnd : ℚ) (req : Req) :
    (workerFetch store nowMs rnd req).patches = []
      ∨ (workerFetch store nowMs rnd req).patches
          = [⟨usersPath (req.userId.getD ("")), otpMask,
              objectToFirestore
                [(("currentOtpCode" : String), .str (generateOtp rnd)),
                 (("otpExpiresAt" : String), .date (otpExpiryMs nowMs))]⟩]
      ∨ (workerFetch store nowMs rnd req).patches
          = [clearOtpPatch (req.userId.getD (""))] := by
  rw [workerFetch]
  split
  · exact Or.inl rfl
  · cases hs : store (usersPath (req.userId.getD (""))) with
    | none => exact Or.inl rfl
    | some userDoc =>
      simp only []
      cases hd : firestoreToObject userDoc with
      | none => exact Or.inl rfl
      | some userData =>
        simp only []
        split
        · split
          · exact Or.inl rfl
          · split
            · exact Or.inl rfl
            · exact Or.inr (Or.inl rfl)
        · split
          · split
            · exact Or.inl rfl
            · split
              · exact Or.inr (Or.inr rfl)
              · exact Or.inl rfl
          · exact Or.inl rfl

/-- C5: every PATCH the handler issues — on send and on verify success —
names exactly `currentOtpCode` and `otpExpiresAt` in its update mask, its
body holds exactly those two fields, and applying the masked patch leaves
every other field of any document unchanged. -/
theorem patch_shape
    (store : String → Option Doc) (nowMs : Int) (rnd : ℚ) (req : Req)
    (p : PatchCall) (doc : Doc) (k : String)
    (hp : p ∈ (workerFetch store nowMs rnd req).patches)
    (hk : ¬ k ∈ otpMask) :
    p.mask = otpMask
      ∧ (∃ bodyFields, p.body = ⟨some bodyFields⟩
          ∧ bodyFields.map Prod.fst = otpMask)
      ∧ assocGet ((applyPatch doc p).fields.getD []) k
          = assocGet (doc.fields.getD []) k := by
  have hk1 : ¬ k = ("currentOtpCode") := fun h => hk (by simp [otpMask, h])
  have hk2 : ¬ k = ("otpExpiresAt") := fun h => hk (by simp [otpMask, h])
  rcases workerFetch_patches_shape store nowMs rnd req with hs | hs | hs
  · rw [hs] at hp
    simp at hp
  · rw [hs, List.mem_singleton] at hp
    subst hp
    refine ⟨rfl, ⟨_, rfl, rfl⟩, ?_⟩
    rw [applyPatch_two doc
      ⟨usersPath (req.userId.getD ("")), otpMask,
        objectToFirestore
          [(("currentOtpCode" : String), .str (generateOtp rnd)),
           (("otpExpiresAt" : String), .date (otpExpiryMs nowMs))]⟩
      (.stringValue (generateOtp rnd))
      (.timestampValue (otpExpiryMs nowMs)) rfl rfl rfl]
    show assocGet (assocSet (assocSet (doc.fields.getD [])
      ("currentOtpCode") _) ("otpExpiresAt") _) k = _
    rw [assocGet_assocSet_ne _ _ _ _ (fun h => hk2 h.symm),
      assocGet_assocSet_ne _ _ _ _ (fun h => hk1 h.symm)]
  · rw [hs, List.mem_singleton] at hp
    subst hp
    refine ⟨rfl, ⟨_, rfl, rfl⟩, ?_⟩
    rw [applyPatch_two doc (clearOtpPatch (req.userId.getD ("")))
      .nullValue .nullValue rfl rfl rfl]
    show assocGet (assocSet (assocSet (doc.fields.getD [])
      ("currentOtpCode") _) ("otpExpiresAt") _) k = _
    rw [assocGet_assocSet_ne _ _ _ _ (fun h => hk2 h.symm),
      assocGet_assocSet_ne _ _ _ _ (fun h => hk1 h.symm)]

/-- C5 witness: the patch issued by a concrete successful send, applied to
the concrete record, leaves the `phone` field unchanged. -/
theorem patch_shape_witness :
    (⟨usersPath ("u1"), otpMask,
        objectToFirestore
          [(("currentOtpCode" : String), .str (generateOtp 0)),
           (("otpExpiresAt" : String), .date (otpExpiryMs 0))]⟩ : PatchCall).mask
        = otpMask
      ∧ (∃ bodyFields,
          (⟨usersPath ("u1"), otpMask,
            objectToFirestore
              [(("currentOtpCode" : String), .str (generateOtp 0)),
               (("otpExpiresAt" : String), .date (otpExpiryMs 0))]⟩
            : PatchCall).body = ⟨some bodyFields⟩
          ∧ bodyFields.map Prod.fst = otpMask)
      ∧ assocGet ((applyPatch eligibleDoc
            ⟨usersPath ("u1"), otpMask,
              objectToFirestore
                [(("currentOtpCode" : String), .str (generateOtp 0)),
                 (("otpExpiresAt" : String), .date (otpExpiryMs 0))]⟩
          ).fields.getD []) ("phone")
          = assocGet (eligibleDoc.fields.getD []) ("phone") :=
  patch_shape sampleStore 0 0 sendReq
    ⟨usersPath ("u1"), otpMask,
      objectToFirestore
        [(("currentOtpCode" : String), .str (generateOtp 0)),
         (("otpExpiresAt" : String), .date (otpExpiryMs 0))]⟩
    eligibleDoc ("phone") (List.mem_singleton.mpr rfl) (by decide)

/-- C2: on a successful verification the one patch issued is the masked
clear of both `currentOtpCode` and `otpExpiresAt` (both set to null), and
re-verifying the same code against the patched record — at any later time
and random draw — fails with invalid-or-expired: one-time use. -/
theorem verify_success_clears
    (store : String → Option Doc) (nowMs : Int) (rnd : ℚ) (req : Req)
    (uid : String) (doc : Doc) (userData : Obj)
    (fs : List (String × FirestoreValue)) (nowMs2 : Int) (rnd2 : ℚ)
    (hu : req.userId = some uid)
    (hut : strTruthy req.userId = true)
    (hdoc : store (usersPath uid) = some doc)
    (hdec : firestoreToObject doc = some userData)
    (hact : req.action = some ("verify"))
    (hot : strTruthy req.otp = true)
    (hfs : doc.fields = some fs)
    (hnd : (fs.map Prod.fst).Nodup)
    (hsucc : (workerFetch store nowMs rnd req).result = .otpVerified) :
    (workerFetch store nowMs rnd req).patches = [clearOtpPatch uid]
      ∧ (clearOtpPatch uid).mask = otpMask
      ∧ (clearOtpPatch uid).body
          = ⟨some [(("currentOtpCode" : String), .nullValue),
              (("otpExpiresAt" : String), .nullValue)]⟩
      ∧ (workerFetch
            (overrideStore store (usersPath uid)
              (applyPatch doc (clearOtpPatch uid)))
            nowMs2 rnd2 req).result = .invalidOrExpired := by
  have hred := workerFetch_verify_reduce store nowMs rnd req uid doc userData
    hu hut hdoc hdec hact hot
  by_cases hg : otpChecksOut userData (req.otp.getD ("")) nowMs = true
  · have happ : applyPatch doc (clearOtpPatch uid)
        = ⟨some (assocSet (assocSet fs ("currentOtpCode") .nullValue)
            ("otpExpiresAt") .nullValue)⟩ := by
      rw [applyPatch_two doc (clearOtpPatch uid) .nullValue .nullValue
        rfl rfl rfl, hfs]
      rfl
    have hnd2 : ((assocSet (assocSet fs ("currentOtpCode")
        (FirestoreValue.nullValue)) ("otpExpiresAt")
        (FirestoreValue.nullValue)).map Prod.fst).Nodup :=
      assocSet_map_fst_nodup _ _ _ (assocSet_map_fst_nodup _ _ _ hnd)
    have hlook : assocGet (assocSet (assocSet fs ("currentOtpCode")
        (FirestoreValue.nullValue)) ("otpExpiresAt")
        (FirestoreValue.nullValue)) ("currentOtpCode")
        = some FirestoreValue.nullValue := by
      rw [assocGet_assocSet_ne _ _ _ _ (by decide), assocGet_assocSet_self]
    have hdec2 : firestoreToObject (applyPatch doc (clearOtpPatch uid))
        = some (decodeFields (assocSet (assocSet fs ("currentOtpCode")
            .nullValue) ("otpExpiresAt") .nullValue)) := by
      rw [happ]
      rfl
    have hdoc2 : overrideStore store (usersPath uid)
        (applyPatch doc (clearOtpPatch uid)) (usersPath uid)
        = some (applyPatch doc (clearOtpPatch uid)) := by
      rw [overrideStore]
      simp
    have hg2 : ¬ otpChecksOut (decodeFields (assocSet (assocSet fs
        ("currentOtpCode") .nullValue) ("otpExpiresAt") .nullValue))
        (req.otp.getD ("")) nowMs2 = true := by
      rw [otpChecksOut]
      have hcode : assocGet (decodeFields (assocSet (assocSet fs
          ("currentOtpCode") (FirestoreValue.nullValue)) ("otpExpiresAt")
          (FirestoreValue.nullValue))) ("currentOtpCode")
          = some JSValue.null := by
        rw [assocGet_decodeFields _ _ hnd2, hlook]
        rfl
      rw [hcode]
      simp [strictEqStr]
    refine ⟨by rw [hred, if_pos hg], rfl, rfl, ?_⟩
    rw [workerFetch_verify_reduce _ nowMs2 rnd2 req uid
      (applyPatch doc (clearOtpPatch uid)) _ hu hut hdoc2 hdec2 hact hot]
    rw [if_neg hg2]
  · rw [hred, if_neg hg] at hsucc
    exact absurd hsucc (by decide)

/-- C2 witness: a concrete successful verification and the failing replay
against the patched record. -/
theorem verify_success_clears_witness :
    (workerFetch sampleStore 0 0 verifyReq).patches = [clearOtpPatch ("u1")]
      ∧ (clearOtpPatch ("u1")).mask = otpMask
      ∧ (clearOtpPatch ("u1")).body
          = ⟨some [(("currentOtpCode" : String), .nullValue),
              (("otpExpiresAt" : String), .nullValue)]⟩
      ∧ (workerFetch
            (overrideStore sampleStore (usersPath ("u1"))
              (applyPatch eligibleDoc (clearOtpPatch ("u1"))))
            0 0 verifyReq).result = .invalidOrExpired :=
  verify_success_clears sampleStore 0 0 verifyReq ("u1") eligibleDoc
    eligibleObj
    [(("isPhoneVerified" : String), .booleanValue true),
     (("is2FAEnabled" : String), .booleanValue true),
     (("phone" : String), .stringValue ("+1555")),
     (("currentOtpCode" : String), .stringValue ("123456")),
     (("otpExpiresAt" : String), .timestampValue 60000)]
    0 0 rfl rfl rfl rfl rfl rfl rfl (by decide) rfl
